import Mathlib

/-!
# Verification of the S3 thumbnail-generator Lambda

A shallow embedding of `src/lambda/thumbnail_generator.py` and of the
library routines it invokes (`os.path.splitext` from CPython's
`posixpath`, `PIL.Image.thumbnail`), together with proofs of the
specified properties.

External collaborators (the S3 client, the image codec, the process
environment) are modelled as an explicit `World` of oracle functions;
the handler is a pure function from a `World` and an event to a result
together with a trace of storage/environment effects.
-/

namespace Thumb

/-! ## `os.path.splitext`

CPython `genericpath._splitext` with `sep = '/'`, `altsep = None`,
`extsep = '.'` (the `posixpath` instantiation used on Lambda):

    sepIndex = p.rfind(sep)
    dotIndex = p.rfind(extsep)
    if dotIndex > sepIndex:
        filenameIndex = sepIndex + 1
        while filenameIndex < dotIndex:
            if p[filenameIndex] != extsep:
                return p[:dotIndex], p[dotIndex:]
            filenameIndex += 1
    return p, ''
-/

/-- Index of the last occurrence of `c` in `l`, if any
(`str.rfind` returning `none` instead of `-1`). -/
def rfindIdx (c : Char) : List Char → Option Nat
  | [] => none
  | x :: xs =>
    match rfindIdx c xs with
    | some i => some (i + 1)
    | none => if x = c then some 0 else none

/-- Python's `str.rfind`: last index of `c`, or `-1` when absent. -/
def rfind (c : Char) (l : List Char) : Int :=
  match rfindIdx c l with
  | some i => (i : Int)
  | none => -1

/-- The `while` loop of `_splitext`: some index strictly between
`sepIndex` and `dotIndex` holds a character other than `'.'`
(so the filename is not made of leading dots only). -/
def hasStem (p : List Char) (sepIndex dotIndex : Int) : Bool :=
  (List.range p.length).any fun i =>
    decide (sepIndex < (i : Int)) && decide ((i : Int) < dotIndex) && (p.getD i '.' != '.')

/-- `os.path.splitext` on the character list. -/
def splitextList (p : List Char) : List Char × List Char :=
  let sepIndex := rfind '/' p
  let dotIndex := rfind '.' p
  if dotIndex > sepIndex ∧ hasStem p sepIndex dotIndex then
    (p.take dotIndex.toNat, p.drop dotIndex.toNat)
  else
    (p, [])

/-- `os.path.splitext` on strings. -/
def splitext (p : String) : String × String :=
  ((splitextList p.data).1.asString, (splitextList p.data).2.asString)

/-- Destination-key derivation, lines 22–23 of the handler:
`thumbnail_name, thumbnail_ext = os.path.splitext(key)` and
`thumbnail_key = f"{thumbnail_name}_thumbnail{thumbnail_ext}"`. -/
def thumbnail_key (key : String) : String :=
  (splitext key).1 ++ "_thumbnail" ++ (splitext key).2

/-! ## `PIL.Image.thumbnail`

A decoded raster image: a width/height pair plus the pixel payload,
which the claims never inspect and which is therefore kept abstract
(`content : Nat`). `Image.thumbnail` resamples the pixels and sets the
new size; only the size computation is observable here.

Pillow's size computation (`Image.thumbnail(size)`), with Python's
binary floats rendered as exact rationals:

    x, y = map(math.floor, size)
    if x >= self.width and y >= self.height:
        return
    def round_aspect(number, key):
        return max(min(math.floor(number), math.ceil(number), key=key), 1)
    aspect = self.width / self.height
    if x / y >= aspect:
        x = round_aspect(y * aspect, key=lambda n: abs(aspect - n / y))
    else:
        y = round_aspect(x / aspect,
                         key=lambda n: 0 if n == 0 else abs(aspect - x / n))
    size = (x, y)
-/

/-- In-memory raster image. -/
structure Img where
  width : Nat
  height : Nat
  /-- Abstract pixel payload. -/
  content : Nat
  deriving DecidableEq, Repr

/-- Pillow's `round_aspect`: whichever of `⌊number⌋`, `⌈number⌉`
minimises `key` (ties to the floor, as Python's `min` keeps the first
argument), clamped below by 1. -/
def round_aspect (number : ℚ) (key : ℤ → ℚ) : ℤ :=
  max (if key ⌊number⌋ ≤ key ⌈number⌉ then ⌊number⌋ else ⌈number⌉) 1

/-- `img.thumbnail((bx, by))`: the size computation of
`PIL.Image.thumbnail`, pixel resampling abstracted away. -/
def pil_thumbnail (img : Img) (bx bY : Nat) : Img :=
  if bx ≥ img.width ∧ bY ≥ img.height then img
  else
    let aspect : ℚ := (img.width : ℚ) / (img.height : ℚ)
    if (bx : ℚ) / (bY : ℚ) ≥ aspect then
      let x := round_aspect ((bY : ℚ) * aspect) (fun n => |aspect - (n : ℚ) / (bY : ℚ)|)
      { img with width := x.toNat, height := bY }
    else
      let y := round_aspect ((bx : ℚ) / aspect)
        (fun n => if n = 0 then 0 else |aspect - (bx : ℚ) / (n : ℚ)|)
      { img with width := bx, height := y.toNat }

/-! ## The Lambda handler

The inbound S3 notification event. The handler dereferences
`event["Records"][0]["s3"]["bucket"]["name"]` and
`event["Records"][0]["s3"]["object"]["key"]`; a missing dictionary
entry raises `KeyError`, an out-of-range index raises `IndexError`.
Fields the handler may find absent are `Option`s; everything else the
event may carry (other record fields, other top-level entries) is
collapsed into opaque `extra` strings, so that events can differ in
material the handler never reads. -/

/-- One entry of the event's `Records` list. -/
structure S3Record where
  /-- `record["s3"]["bucket"]["name"]`, when present. -/
  bucketName : Option String
  /-- `record["s3"]["object"]["key"]`, when present. -/
  objectKey : Option String
  /-- All other fields of the record, never read by the handler. -/
  extra : String
  deriving DecidableEq, Repr

/-- The notification event. -/
structure Event where
  /-- `event["Records"]`, when present. -/
  records : Option (List S3Record)
  /-- All other top-level fields, never read by the handler. -/
  extra : String
  deriving DecidableEq, Repr

/-- Raw object bytes. -/
abbrev Bytes := List Nat

/-- Errors the handler can raise.  `keyError f` is Python's
`KeyError(f)` — raised both for missing event fields and for a missing
environment variable; `indexError` is `IndexError` on `Records[0]`;
`clientError` is a botocore error propagated from `get_object`;
`decodeError` is PIL's failure to identify the image;
`encodeError` is a failure of `img.save`;
`uploadError msg` is the `Exception(msg)` raised on a non-200 upload. -/
inductive HandlerError where
  | keyError (field : String)
  | indexError
  | clientError (msg : String)
  | decodeError
  | encodeError
  | uploadError (msg : String)
  deriving DecidableEq, Repr

/-- Observable side effects of one invocation, in order. -/
inductive Effect where
  | readEnv (name : String)
  | getObject (bucket key : String)
  | putObject (bucket key : String) (body : Bytes)
  deriving DecidableEq, Repr

/-- The handler's external collaborators: the process environment and
the S3/PIL oracles, fixed for the duration of one invocation. -/
structure World where
  /-- `os.environ.get("DEST_BUCKET")`. -/
  destBucket : Option String
  /-- `s3_client.get_object(Bucket, Key)['Body'].read()`; `.error`
  is a propagated botocore exception (`NoSuchKey`, `AccessDenied`, …). -/
  getObject : String → String → Except String Bytes
  /-- `Image.open(BytesIO(bytes))`: `none` when the bytes are not a
  valid image. -/
  decode : Bytes → Option Img
  /-- `img.save(buffer, format)`: the encoded bytes, `none` when the
  image mode cannot be written in that format. -/
  save : Img → String → Option Bytes
  /-- HTTP status code of `put_object(Bucket, Key, Body)`
  (`sent_data['ResponseMetadata']['HTTPStatusCode']`). -/
  putStatus : String → String → Bytes → Nat

/-- `lambda_handler(event, context)` of
`src/lambda/thumbnail_generator.py`: the result (returned event or
raised error) together with the trace of environment/storage effects,
in program order. -/
def lambda_handler (w : World) (event : Event) : Except HandlerError Event × List Effect :=
  match event.records with
  | none => (.error (.keyError "Records"), [])
  | some [] => (.error .indexError, [])
  | some (record :: _) =>
    match record.bucketName with
    | none => (.error (.keyError "name"), [])
    | some bucket =>
      match record.objectKey with
      | none => (.error (.keyError "key"), [])
      | some key =>
        match w.destBucket with
        | none => (.error (.keyError "DEST_BUCKET"), [.readEnv "DEST_BUCKET"])
        | some thumbnail_bucket =>
          match w.getObject bucket key with
          | .error e =>
            (.error (.clientError e), [.readEnv "DEST_BUCKET", .getObject bucket key])
          | .ok file_byte_string =>
            match w.decode file_byte_string with
            | none =>
              (.error .decodeError, [.readEnv "DEST_BUCKET", .getObject bucket key])
            | some img =>
              let thumb := pil_thumbnail img 500 500
              match w.save thumb "JPEG" with
              | none =>
                (.error .encodeError, [.readEnv "DEST_BUCKET", .getObject bucket key])
              | some buffer =>
                let trace := [.readEnv "DEST_BUCKET", .getObject bucket key,
                  .putObject thumbnail_bucket (thumbnail_key key) buffer]
                if w.putStatus thumbnail_bucket (thumbnail_key key) buffer ≠ 200 then
                  (.error (.uploadError
                    ("Failed to upload image " ++ key ++ " to bucket " ++ bucket)), trace)
                else
                  (.ok event, trace)

/-- The storage writes in a trace: `(bucket, key, body)` triples. -/
def puts : List Effect → List (String × String × Bytes)
  | [] => []
  | .putObject b k body :: t => (b, k, body) :: puts t
  | _ :: t => puts t

/-- The storage reads in a trace: `(bucket, key)` pairs. -/
def gets : List Effect → List (String × String)
  | [] => []
  | .getObject b k :: t => (b, k) :: gets t
  | _ :: t => gets t

/-- The environment variables consulted in a trace. -/
def envReads : List Effect → List String
  | [] => []
  | .readEnv n :: t => n :: envReads t
  | _ :: t => envReads t

/-- The state of the destination store: bytes per `(bucket, key)`. -/
def Store := String → String → Option Bytes

/-- Replay a trace against a store: each `put_object` overwrites the
object at its key; reads and environment lookups leave it unchanged. -/
def applyEffect (s : Store) : Effect → Store
  | .putObject b k body => fun b' k' => if b' = b ∧ k' = k then some body else s b' k'
  | _ => s

/-- Replay a whole trace, left to right. -/
def applyTrace (s : Store) (t : List Effect) : Store :=
  t.foldl applyEffect s

/-! ## Lemmas about `rfind` and `splitext` -/

theorem rfindIdx_eq_none_iff {c : Char} : ∀ {l : List Char}, rfindIdx c l = none ↔ c ∉ l
  | [] => by simp [rfindIdx]
  | x :: xs => by
    rw [rfindIdx]
    cases h : rfindIdx c xs with
    | some i =>
      have hmem : c ∈ xs := by
        by_contra hc
        rw [← rfindIdx_eq_none_iff] at hc
        rw [h] at hc
        exact Option.noConfusion hc
      simp [hmem]
    | none =>
      have hxs : c ∉ xs := rfindIdx_eq_none_iff.mp h
      by_cases hx : x = c
      · simp [hx]
      · simp [hx, hxs, Ne.symm hx]

theorem rfindIdx_lt_length {c : Char} :
    ∀ {l : List Char} {i : Nat}, rfindIdx c l = some i → i < l.length
  | [], _, h => by simp [rfindIdx] at h
  | x :: xs, i, h => by
    rw [rfindIdx] at h
    cases hx : rfindIdx c xs with
    | some j =>
      rw [hx] at h
      obtain rfl : j + 1 = i := Option.some.inj h
      exact Nat.succ_lt_succ (rfindIdx_lt_length hx)
    | none =>
      rw [hx] at h
      by_cases hxc : x = c
      · simp only [if_pos hxc] at h
        obtain rfl : 0 = i := Option.some.inj h
        exact Nat.succ_pos _
      · simp [hxc] at h

theorem rfindIdx_getD {c : Char} :
    ∀ {l : List Char} {i : Nat}, rfindIdx c l = some i → ∀ d : Char, l.getD i d = c
  | [], _, h => by simp [rfindIdx] at h
  | x :: xs, i, h => by
    rw [rfindIdx] at h
    cases hx : rfindIdx c xs with
    | some j =>
      rw [hx] at h
      obtain rfl : j + 1 = i := Option.some.inj h
      intro d
      simpa using rfindIdx_getD hx d
    | none =>
      rw [hx] at h
      by_cases hxc : x = c
      · simp [hxc] at h
        subst h
        simp [hxc]
      · simp [hxc] at h

theorem rfindIdx_not_mem_drop {c : Char} :
    ∀ {l : List Char} {i : Nat}, rfindIdx c l = some i → c ∉ l.drop (i + 1)
  | [], _, h => by simp [rfindIdx] at h
  | x :: xs, i, h => by
    rw [rfindIdx] at h
    cases hx : rfindIdx c xs with
    | some j =>
      rw [hx] at h
      obtain rfl : j + 1 = i := Option.some.inj h
      simpa using rfindIdx_not_mem_drop hx
    | none =>
      rw [hx] at h
      by_cases hxc : x = c
      · simp [hxc] at h
        subst h
        simpa using rfindIdx_eq_none_iff.mp hx
      · simp [hxc] at h

theorem rfindIdx_append {c : Char} :
    ∀ (l₁ l₂ : List Char), rfindIdx c (l₁ ++ l₂) =
      match rfindIdx c l₂ with
      | some i => some (l₁.length + i)
      | none => rfindIdx c l₁
  | [], l₂ => by
    cases h : rfindIdx c l₂ <;> simp [h, rfindIdx]
  | x :: xs, l₂ => by
    rw [List.cons_append, rfindIdx, rfindIdx_append xs l₂, rfindIdx]
    cases h : rfindIdx c l₂ with
    | some i => simp [Nat.add_right_comm]
    | none => rfl

theorem neg_one_le_rfind (c : Char) (l : List Char) : -1 ≤ rfind c l := by
  unfold rfind
  cases rfindIdx c l with
  | none => simp
  | some i =>
    show -1 ≤ (i : Int)
    omega

theorem rfind_eq_of_rfindIdx_some {c : Char} {l : List Char} {i : Nat}
    (h : rfindIdx c l = some i) : rfind c l = (i : Int) := by
  unfold rfind
  rw [h]

theorem rfind_append_of_none {c : Char} {l₂ : List Char} (h : rfindIdx c l₂ = none)
    (l₁ : List Char) : rfind c (l₁ ++ l₂) = rfind c l₁ := by
  unfold rfind
  rw [rfindIdx_append, h]

theorem hasStem_append {l₁ l₂ : List Char} {sep dot : Int}
    (hdot : dot ≤ (l₁.length : Int)) :
    hasStem (l₁ ++ l₂) sep dot = hasStem l₁ sep dot := by
  rw [Bool.eq_iff_iff]
  unfold hasStem
  simp only [List.any_eq_true, List.mem_range, Bool.and_eq_true, decide_eq_true_eq,
    bne_iff_ne]
  constructor
  · rintro ⟨i, _, ⟨h1, h2⟩, h3⟩
    have hil : i < l₁.length := by exact_mod_cast lt_of_lt_of_le h2 hdot
    exact ⟨i, hil, ⟨h1, h2⟩, by rwa [List.getD_append _ _ _ _ hil] at h3⟩
  · rintro ⟨i, hi, ⟨h1, h2⟩, h3⟩
    refine ⟨i, ?_, ⟨h1, h2⟩, by rwa [List.getD_append _ _ _ _ hi]⟩
    calc i < l₁.length := hi
      _ ≤ (l₁ ++ l₂).length := by simp

/-- `splitextList` with its `let`s spelled out. -/
theorem splitextList_eq (p : List Char) :
    splitextList p =
      if rfind '.' p > rfind '/' p ∧ hasStem p (rfind '/' p) (rfind '.' p) then
        (p.take (rfind '.' p).toNat, p.drop (rfind '.' p).toNat)
      else (p, []) := rfl

/-- `splitext` really splits: the two parts concatenate back to the key. -/
theorem splitextList_append_eq (p : List Char) :
    (splitextList p).1 ++ (splitextList p).2 = p := by
  rw [splitextList_eq]
  split
  · exact List.take_append_drop _ p
  · simp

/-- `"_thumbnail"` as a character list. -/
def thumbSuffix : List Char := "_thumbnail".data

/-- The heart of the extension invariant, on character lists: appending
`"_thumbnail"` between stem and extension does not change where
`splitext` cuts, so the derived key's extension is the source key's. -/
theorem splitextList_thumb (p : List Char) :
    (splitextList ((splitextList p).1 ++ thumbSuffix ++ (splitextList p).2)).2
      = (splitextList p).2 := by
  have hT_dot : rfindIdx '.' thumbSuffix = none := by decide
  have hT_sep : rfindIdx '/' thumbSuffix = none := by decide
  by_cases hc : rfind '.' p > rfind '/' p ∧ hasStem p (rfind '/' p) (rfind '.' p)
  · -- the source key has an extension; the dot keeps its role in the new key
    cases hdot : rfindIdx '.' p with
    | none =>
      exfalso
      have : rfind '.' p = -1 := by unfold rfind; rw [hdot]
      have := hc.1
      have hge := neg_one_le_rfind '/' p
      omega
    | some d =>
      have hsplit : splitextList p = (p.take d, p.drop d) := by
        rw [splitextList_eq, if_pos hc, rfind_eq_of_rfindIdx_some hdot, Int.toNat_ofNat]
      have hdlen : d < p.length := rfindIdx_lt_length hdot
      set n := p.take d with hn
      set e := p.drop d with he
      have hnlen : n.length = d := by
        rw [hn, List.length_take]
        omega
      have hne : n ++ e = p := List.take_append_drop d p
      -- the extension starts with the dot and contains no further dot, no slash
      have hdot_mem : '.' ∉ p.drop (d + 1) := rfindIdx_not_mem_drop hdot
      have hsep_e : '/' ∉ e := by
        cases hsep : rfindIdx '/' p with
        | none =>
          intro hmem
          exact rfindIdx_eq_none_iff.mp hsep (List.drop_subset d p hmem)
        | some s =>
          have hs : rfind '/' p = (s : Int) := rfind_eq_of_rfindIdx_some hsep
          have hsd : s < d := by
            have := hc.1
            rw [hs, rfind_eq_of_rfindIdx_some hdot] at this
            exact_mod_cast this
          intro hmem
          apply rfindIdx_not_mem_drop hsep
          have : e = (p.drop (s + 1)).drop (d - (s + 1)) := by
            rw [he, List.drop_drop]
            congr 1
            omega
          rw [this] at hmem
          exact List.drop_subset _ _ hmem
      obtain ⟨a, rest, hcons⟩ : ∃ a rest, e = a :: rest := by
        cases hE : e with
        | nil =>
          exfalso
          have : e.length = p.length - d := by rw [he, List.length_drop]
          rw [hE] at this
          simp at this
          omega
        | cons a rest => exact ⟨a, rest, rfl⟩
      have ha : a = '.' := by
        have h1 : p.getD d 'x' = '.' := rfindIdx_getD hdot 'x'
        have h2 : p.getD d 'x' = e.getD 0 'x' := by
          conv_lhs => rw [← hne]
          rw [List.getD_append_right _ _ _ _ hnlen.le, hnlen]
          simp
        rw [h2, hcons] at h1
        simpa using h1
      have hrest : '.' ∉ rest := by
        have : rest = p.drop (d + 1) := by
          have : e.drop 1 = p.drop (d + 1) := by
            rw [he, List.drop_drop]
          rw [hcons] at this
          simpa using this
        rw [this]
        exact hdot_mem
      have hdot_e : rfindIdx '.' e = some 0 := by
        rw [hcons, ha, rfindIdx, rfindIdx_eq_none_iff.mpr hrest]
        simp
      have hsep_e' : rfindIdx '/' e = none := rfindIdx_eq_none_iff.mpr hsep_e
      -- indices in the enlarged key
      have hnT : (n ++ thumbSuffix).length = d + 10 := by
        rw [List.length_append, hnlen]
        rfl
      have hdotL : rfindIdx '.' ((n ++ thumbSuffix) ++ e) = some (d + 10) := by
        rw [rfindIdx_append, hdot_e, hnT]
      have hsepL : rfind '/' ((n ++ thumbSuffix) ++ e) = rfind '/' p := by
        rw [rfind_append_of_none hsep_e', rfind_append_of_none hT_sep, ← hne,
          rfind_append_of_none hsep_e']
      have hcondL : rfind '.' ((n ++ thumbSuffix) ++ e)
          > rfind '/' ((n ++ thumbSuffix) ++ e) := by
        rw [rfind_eq_of_rfindIdx_some hdotL, hsepL]
        have := hc.1
        rw [rfind_eq_of_rfindIdx_some hdot] at this
        have h10 : ((d : Int)) ≤ ((d + 10 : Nat) : Int) := by push_cast; omega
        omega
      have hstemL : hasStem ((n ++ thumbSuffix) ++ e) (rfind '/' ((n ++ thumbSuffix) ++ e))
          (rfind '.' ((n ++ thumbSuffix) ++ e)) = true := by
        rw [rfind_eq_of_rfindIdx_some hdotL, hsepL]
        unfold hasStem
        rw [List.any_eq_true]
        refine ⟨d, ?_, ?_⟩
        · rw [List.mem_range, List.length_append, hnT]
          omega
        · have hgetd : ((n ++ thumbSuffix) ++ e).getD d '.' = '_' := by
            have h1 : d < (n ++ thumbSuffix).length := by omega
            rw [List.getD_append _ _ _ _ h1,
              List.getD_append_right _ _ _ _ hnlen.le, hnlen]
            simp [thumbSuffix]
          rw [hgetd]
          simp only [Bool.and_eq_true, decide_eq_true_eq, bne_iff_ne]
          refine ⟨⟨?_, ?_⟩, by decide⟩
          · have := hc.1
            rw [rfind_eq_of_rfindIdx_some hdot] at this
            omega
          · push_cast
            omega
      have : splitextList ((n ++ thumbSuffix) ++ e) = (n ++ thumbSuffix, e) := by
        rw [splitextList_eq, if_pos ⟨hcondL, hstemL⟩, rfind_eq_of_rfindIdx_some hdotL,
          Int.toNat_ofNat, ← hnT, List.take_left, List.drop_left]
      rw [hsplit]
      simpa [hn, he] using congrArg Prod.snd this
  · -- no extension in the source key: none in the derived key either
    have hsplit : splitextList p = (p, []) := by
      rw [splitextList_eq, if_neg hc]
    rw [hsplit]
    simp only [List.append_nil]
    have hdL : rfind '.' (p ++ thumbSuffix) = rfind '.' p :=
      rfind_append_of_none hT_dot p
    have hsL : rfind '/' (p ++ thumbSuffix) = rfind '/' p :=
      rfind_append_of_none hT_sep p
    have hcL : ¬(rfind '.' (p ++ thumbSuffix) > rfind '/' (p ++ thumbSuffix)
        ∧ hasStem (p ++ thumbSuffix) (rfind '/' (p ++ thumbSuffix))
            (rfind '.' (p ++ thumbSuffix))) := by
      rw [hdL, hsL]
      rintro ⟨h1, h2⟩
      cases hdot : rfindIdx '.' p with
      | none =>
        have : rfind '.' p = -1 := by unfold rfind; rw [hdot]
        have := neg_one_le_rfind '/' p
        omega
      | some d =>
        have hdlen : d < p.length := rfindIdx_lt_length hdot
        have hle : rfind '.' p ≤ (p.length : Int) := by
          rw [rfind_eq_of_rfindIdx_some hdot]
          exact_mod_cast le_of_lt hdlen
        rw [hasStem_append hle] at h2
        exact hc ⟨h1, h2⟩
    rw [splitextList_eq, if_neg hcL]

/-- Extension invariant at string level: the destination key's
extension equals the source key's. -/
theorem splitext_thumbnail_key (key : String) :
    (splitext (thumbnail_key key)).2 = (splitext key).2 := by
  have hdata : (thumbnail_key key).data
      = (splitextList key.data).1 ++ thumbSuffix ++ (splitextList key.data).2 := by
    simp [thumbnail_key, splitext, String.data_append, thumbSuffix, List.asString,
      List.append_assoc]
  unfold splitext
  rw [hdata]
  have h := splitextList_thumb key.data
  simp only [List.append_assoc] at h ⊢
  exact congrArg List.asString h

/-! ## Lemmas about the resize step -/

theorem one_le_round_aspect (number : ℚ) (key : ℤ → ℚ) : 1 ≤ round_aspect number key :=
  le_max_right _ _

theorem round_aspect_le {number : ℚ} {B : ℤ} (hB : 1 ≤ B) (h : number ≤ (B : ℚ))
    (key : ℤ → ℚ) : round_aspect number key ≤ B := by
  unfold round_aspect
  have hc : ⌈number⌉ ≤ B := Int.ceil_le.mpr h
  have hf : ⌊number⌋ ≤ B := le_trans (Int.floor_le_ceil number) hc
  split
  · exact max_le hf hB
  · exact max_le hc hB

theorem round_aspect_close {number : ℚ} (h0 : 0 < number) (key : ℤ → ℚ) :
    |((round_aspect number key : ℤ) : ℚ) - number| ≤ 1 := by
  unfold round_aspect
  rw [abs_le]
  have hf1 : ((⌊number⌋ : ℤ) : ℚ) ≤ number := Int.floor_le number
  have hf2 : number < ((⌊number⌋ : ℤ) : ℚ) + 1 := Int.lt_floor_add_one number
  have hc1 : number ≤ ((⌈number⌉ : ℤ) : ℚ) := Int.le_ceil number
  have hc2 : ((⌈number⌉ : ℤ) : ℚ) < number + 1 := Int.ceil_lt_add_one number
  have hfl0 : 0 ≤ ⌊number⌋ := Int.floor_nonneg.mpr h0.le
  have hcl1 : 1 ≤ ⌈number⌉ := Int.ceil_pos.mpr h0
  split
  · rcases le_or_lt 1 ⌊number⌋ with hge | hlt
    · rw [max_eq_left hge]
      constructor <;> linarith
    · have h0f : ⌊number⌋ = 0 := by omega
      have hmax : max ⌊number⌋ 1 = 1 := by omega
      rw [hmax]
      have : number < 1 := by
        rw [h0f] at hf2
        simpa using hf2
      constructor <;> push_cast <;> linarith
  · rw [max_eq_left hcl1]
    constructor <;> linarith

/-- `pil_thumbnail` with the `let`s spelled out. -/
theorem pil_thumbnail_eq (img : Img) (bx bY : Nat) :
    pil_thumbnail img bx bY =
      if bx ≥ img.width ∧ bY ≥ img.height then img
      else if (bx : ℚ) / (bY : ℚ) ≥ (img.width : ℚ) / (img.height : ℚ) then
        { img with
          width := (round_aspect ((bY : ℚ) * ((img.width : ℚ) / (img.height : ℚ)))
            (fun n => |(img.width : ℚ) / (img.height : ℚ) - (n : ℚ) / (bY : ℚ)|)).toNat,
          height := bY }
      else
        { img with
          width := bx,
          height := (round_aspect ((bx : ℚ) / ((img.width : ℚ) / (img.height : ℚ)))
            (fun n => if n = 0 then 0 else
              |(img.width : ℚ) / (img.height : ℚ) - (bx : ℚ) / (n : ℚ)|)).toNat } := rfl

/-- The resize never leaves the 500×500 bounding box. -/
theorem pil_thumbnail_le (img : Img) :
    (pil_thumbnail img 500 500).width ≤ 500 ∧ (pil_thumbnail img 500 500).height ≤ 500 := by
  by_cases h1 : 500 ≥ img.width ∧ 500 ≥ img.height
  · rw [pil_thumbnail_eq, if_pos h1]
    exact ⟨h1.1, h1.2⟩
  · by_cases h2 : ((500 : ℕ) : ℚ) / ((500 : ℕ) : ℚ) ≥ (img.width : ℚ) / (img.height : ℚ)
    · rw [pil_thumbnail_eq, if_neg h1, if_pos h2]
      refine ⟨?_, le_refl 500⟩
      show (round_aspect _ _).toNat ≤ 500
      rw [Int.toNat_le]
      have haspect : (img.width : ℚ) / (img.height : ℚ) ≤ 1 := by
        have h500 : ((500 : ℕ) : ℚ) / ((500 : ℕ) : ℚ) = 1 := by norm_num
        rw [h500] at h2
        exact h2
      refine le_trans (round_aspect_le (B := 500) (by norm_num) ?_ _) (by norm_num)
      push_cast
      linarith
    · rw [pil_thumbnail_eq, if_neg h1, if_neg h2]
      refine ⟨le_refl 500, ?_⟩
      show (round_aspect _ _).toNat ≤ 500
      rw [Int.toNat_le]
      have haspect : 1 < (img.width : ℚ) / (img.height : ℚ) := by
        push_neg at h2
        have h500 : ((500 : ℕ) : ℚ) / ((500 : ℕ) : ℚ) = 1 := by norm_num
        rw [h500] at h2
        exact h2
      refine le_trans (round_aspect_le (B := 500) (by norm_num) ?_ _) (by norm_num)
      rw [div_le_iff₀ (by linarith)]
      push_cast
      nlinarith

/-- Images already inside the box are returned unchanged. -/
theorem pil_thumbnail_noop (img : Img) (hw : img.width ≤ 500) (hh : img.height ≤ 500) :
    pil_thumbnail img 500 500 = img := by
  rw [pil_thumbnail_eq, if_pos ⟨hw, hh⟩]

/-- In a shrink of a portrait (or square) image, the computed width is
within one unit of the exact aspect-preserving value. -/
theorem pil_thumbnail_aspect_width (img : Img) (hw : 0 < img.width) (hh : 0 < img.height)
    (h1 : ¬(img.width ≤ 500 ∧ img.height ≤ 500)) (hwh : img.width ≤ img.height) :
    |(((pil_thumbnail img 500 500).width : ℕ) : ℚ)
      - 500 * ((img.width : ℚ) / (img.height : ℚ))| ≤ 1 := by
  have hhq : (0 : ℚ) < (img.height : ℚ) := by exact_mod_cast hh
  have hwq : (0 : ℚ) < (img.width : ℚ) := by exact_mod_cast hw
  have h2 : ((500 : ℕ) : ℚ) / ((500 : ℕ) : ℚ) ≥ (img.width : ℚ) / (img.height : ℚ) := by
    have : (img.width : ℚ) / (img.height : ℚ) ≤ 1 := by
      rw [div_le_one hhq]
      exact_mod_cast hwh
    simpa using this
  rw [pil_thumbnail_eq, if_neg h1, if_pos h2]
  show |((round_aspect _ _).toNat : ℚ) - _| ≤ 1
  have hpos : (0 : ℚ) < ((500 : ℕ) : ℚ) * ((img.width : ℚ) / (img.height : ℚ)) := by
    have := div_pos hwq hhq
    positivity
  have hone := one_le_round_aspect (((500 : ℕ) : ℚ) * ((img.width : ℚ) / (img.height : ℚ)))
    (fun n => |(img.width : ℚ) / (img.height : ℚ) - (n : ℚ) / ((500 : ℕ) : ℚ)|)
  have hclose := round_aspect_close hpos
    (fun n => |(img.width : ℚ) / (img.height : ℚ) - (n : ℚ) / ((500 : ℕ) : ℚ)|)
  have hcast : (((round_aspect (((500 : ℕ) : ℚ) * ((img.width : ℚ) / (img.height : ℚ)))
      (fun n => |(img.width : ℚ) / (img.height : ℚ) - (n : ℚ) / ((500 : ℕ) : ℚ)|)).toNat : ℕ) : ℚ)
      = ((round_aspect (((500 : ℕ) : ℚ) * ((img.width : ℚ) / (img.height : ℚ)))
      (fun n => |(img.width : ℚ) / (img.height : ℚ) - (n : ℚ) / ((500 : ℕ) : ℚ)|) : ℤ) : ℚ) := by
    have h0 : (0 : ℤ) ≤ round_aspect (((500 : ℕ) : ℚ) * ((img.width : ℚ) / (img.height : ℚ)))
        (fun n => |(img.width : ℚ) / (img.height : ℚ) - (n : ℚ) / ((500 : ℕ) : ℚ)|) := by
      linarith [hone]
    rw [← Int.cast_natCast, Int.toNat_of_nonneg h0]
  rw [hcast]
  have h500 : ((500 : ℕ) : ℚ) = (500 : ℚ) := by norm_num
  rw [h500] at hclose
  exact hclose

/-- In a shrink of a landscape image, the computed height is within one
unit of the exact aspect-preserving value. -/
theorem pil_thumbnail_aspect_height (img : Img) (hw : 0 < img.width) (hh : 0 < img.height)
    (h1 : ¬(img.width ≤ 500 ∧ img.height ≤ 500)) (hwh : img.height < img.width) :
    |(((pil_thumbnail img 500 500).height : ℕ) : ℚ)
      - 500 * ((img.height : ℚ) / (img.width : ℚ))| ≤ 1 := by
  have hhq : (0 : ℚ) < (img.height : ℚ) := by exact_mod_cast hh
  have hwq : (0 : ℚ) < (img.width : ℚ) := by exact_mod_cast hw
  have haspect : 1 < (img.width : ℚ) / (img.height : ℚ) := by
    rw [lt_div_iff₀ hhq]
    have : (img.height : ℚ) < (img.width : ℚ) := by exact_mod_cast hwh
    linarith
  have h2 : ¬(((500 : ℕ) : ℚ) / ((500 : ℕ) : ℚ) ≥ (img.width : ℚ) / (img.height : ℚ)) := by
    simp only [ge_iff_le, not_le]
    calc ((500 : ℕ) : ℚ) / ((500 : ℕ) : ℚ) = 1 := by norm_num
      _ < (img.width : ℚ) / (img.height : ℚ) := haspect
  rw [pil_thumbnail_eq, if_neg h1, if_neg h2]
  show |((round_aspect _ _).toNat : ℚ) - _| ≤ 1
  have hexact : ((500 : ℕ) : ℚ) / ((img.width : ℚ) / (img.height : ℚ))
      = 500 * ((img.height : ℚ) / (img.width : ℚ)) := by
    field_simp
  have hpos : (0 : ℚ) < ((500 : ℕ) : ℚ) / ((img.width : ℚ) / (img.height : ℚ)) := by
    have := div_pos hwq hhq
    positivity
  have hone := one_le_round_aspect (((500 : ℕ) : ℚ) / ((img.width : ℚ) / (img.height : ℚ)))
    (fun n => if n = 0 then 0 else
      |(img.width : ℚ) / (img.height : ℚ) - ((500 : ℕ) : ℚ) / (n : ℚ)|)
  have hclose := round_aspect_close hpos
    (fun n => if n = 0 then 0 else
      |(img.width : ℚ) / (img.height : ℚ) - ((500 : ℕ) : ℚ) / (n : ℚ)|)
  have hcast : (((round_aspect (((500 : ℕ) : ℚ) / ((img.width : ℚ) / (img.height : ℚ)))
      (fun n => if n = 0 then 0 else
        |(img.width : ℚ) / (img.height : ℚ) - ((500 : ℕ) : ℚ) / (n : ℚ)|)).toNat : ℕ) : ℚ)
      = ((round_aspect (((500 : ℕ) : ℚ) / ((img.width : ℚ) / (img.height : ℚ)))
      (fun n => if n = 0 then 0 else
        |(img.width : ℚ) / (img.height : ℚ) - ((500 : ℕ) : ℚ) / (n : ℚ)|) : ℤ) : ℚ) := by
    have h0 : (0 : ℤ) ≤ round_aspect (((500 : ℕ) : ℚ) / ((img.width : ℚ) / (img.height : ℚ)))
        (fun n => if n = 0 then 0 else
          |(img.width : ℚ) / (img.height : ℚ) - ((500 : ℕ) : ℚ) / (n : ℚ)|) := by
      linarith [hone]
    rw [← Int.cast_natCast, Int.toNat_of_nonneg h0]
  rw [hcast, ← hexact]
  exact hclose

/-! ## Complete case analysis of one invocation -/

/-- Every invocation falls into exactly one of eight shapes: four
event-lookup failures with an empty trace, a missing-configuration
failure after only the environment read, a fetch/decode/encode failure
after one storage read, a failed upload verification after one read
and one write, or success after one read and one write. -/
theorem lambda_handler_shape (w : World) (e : Event) :
    (lambda_handler w e = (.error (.keyError "Records"), []) ∧ e.records = none)
    ∨ (lambda_handler w e = (.error .indexError, []) ∧ e.records = some [])
    ∨ (∃ record rest, e.records = some (record :: rest) ∧ record.bucketName = none ∧
        lambda_handler w e = (.error (.keyError "name"), []))
    ∨ (∃ record rest bucket, e.records = some (record :: rest) ∧
        record.bucketName = some bucket ∧ record.objectKey = none ∧
        lambda_handler w e = (.error (.keyError "key"), []))
    ∨ (w.destBucket = none ∧
        lambda_handler w e = (.error (.keyError "DEST_BUCKET"), [.readEnv "DEST_BUCKET"]))
    ∨ (∃ record rest bucket key tb err, e.records = some (record :: rest) ∧
        record.bucketName = some bucket ∧ record.objectKey = some key ∧
        w.destBucket = some tb ∧
        ((∃ m, err = .clientError m) ∨ err = .decodeError ∨ err = .encodeError) ∧
        lambda_handler w e = (.error err, [.readEnv "DEST_BUCKET", .getObject bucket key]))
    ∨ (∃ record rest bucket key tb bs img buffer, e.records = some (record :: rest) ∧
        record.bucketName = some bucket ∧ record.objectKey = some key ∧
        w.destBucket = some tb ∧ w.getObject bucket key = .ok bs ∧
        w.decode bs = some img ∧
        w.save (pil_thumbnail img 500 500) "JPEG" = some buffer ∧
        w.putStatus tb (thumbnail_key key) buffer ≠ 200 ∧
        lambda_handler w e = (.error (.uploadError
            ("Failed to upload image " ++ key ++ " to bucket " ++ bucket)),
          [.readEnv "DEST_BUCKET", .getObject bucket key,
           .putObject tb (thumbnail_key key) buffer]))
    ∨ (∃ record rest bucket key tb bs img buffer, e.records = some (record :: rest) ∧
        record.bucketName = some bucket ∧ record.objectKey = some key ∧
        w.destBucket = some tb ∧ w.getObject bucket key = .ok bs ∧
        w.decode bs = some img ∧
        w.save (pil_thumbnail img 500 500) "JPEG" = some buffer ∧
        w.putStatus tb (thumbnail_key key) buffer = 200 ∧
        lambda_handler w e = (.ok e,
          [.readEnv "DEST_BUCKET", .getObject bucket key,
           .putObject tb (thumbnail_key key) buffer])) := by
  cases hrec : e.records with
  | none =>
    exact Or.inl ⟨by simp [lambda_handler, hrec], rfl⟩
  | some l =>
    cases l with
    | nil =>
      exact Or.inr (Or.inl ⟨by simp [lambda_handler, hrec], rfl⟩)
    | cons record rest =>
      cases hbn : record.bucketName with
      | none =>
        exact Or.inr (Or.inr (Or.inl
          ⟨record, rest, rfl, hbn, by simp [lambda_handler, hrec, hbn]⟩))
      | some bucket =>
        cases hok : record.objectKey with
        | none =>
          exact Or.inr (Or.inr (Or.inr (Or.inl
            ⟨record, rest, bucket, rfl, hbn, hok, by simp [lambda_handler, hrec, hbn, hok]⟩)))
        | some key =>
          cases hdb : w.destBucket with
          | none =>
            exact Or.inr (Or.inr (Or.inr (Or.inr (Or.inl
              ⟨rfl, by simp [lambda_handler, hrec, hbn, hok, hdb]⟩))))
          | some tb =>
            cases hget : w.getObject bucket key with
            | error m =>
              refine Or.inr (Or.inr (Or.inr (Or.inr (Or.inr (Or.inl
                ⟨record, rest, bucket, key, tb, .clientError m, rfl, hbn, hok, rfl,
                  Or.inl ⟨m, rfl⟩, ?_⟩)))))
              simp [lambda_handler, hrec, hbn, hok, hdb, hget]
            | ok bs =>
              cases hdec : w.decode bs with
              | none =>
                refine Or.inr (Or.inr (Or.inr (Or.inr (Or.inr (Or.inl
                  ⟨record, rest, bucket, key, tb, .decodeError, rfl, hbn, hok, rfl,
                    Or.inr (Or.inl rfl), ?_⟩)))))
                simp [lambda_handler, hrec, hbn, hok, hdb, hget, hdec]
              | some img =>
                cases hsave : w.save (pil_thumbnail img 500 500) "JPEG" with
                | none =>
                  refine Or.inr (Or.inr (Or.inr (Or.inr (Or.inr (Or.inl
                    ⟨record, rest, bucket, key, tb, .encodeError, rfl, hbn, hok, rfl,
                      Or.inr (Or.inr rfl), ?_⟩)))))
                  simp [lambda_handler, hrec, hbn, hok, hdb, hget, hdec, hsave]
                | some buffer =>
                  by_cases hst : w.putStatus tb (thumbnail_key key) buffer = 200
                  · refine Or.inr (Or.inr (Or.inr (Or.inr (Or.inr (Or.inr (Or.inr
                      ⟨record, rest, bucket, key, tb, bs, img, buffer, rfl, hbn, hok,
                        rfl, hget, hdec, hsave, hst, ?_⟩))))))
                    simp [lambda_handler, hrec, hbn, hok, hdb, hget, hdec, hsave, hst]
                  · refine Or.inr (Or.inr (Or.inr (Or.inr (Or.inr (Or.inr (Or.inl
                      ⟨record, rest, bucket, key, tb, bs, img, buffer, rfl, hbn, hok,
                        rfl, hget, hdec, hsave, hst, ?_⟩))))))
                    simp [lambda_handler, hrec, hbn, hok, hdb, hget, hdec, hsave, hst]

/-- String-level version of `splitextList_append_eq`. -/
theorem splitext_append_eq (key : String) :
    (splitext key).1 ++ (splitext key).2 = key := by
  show ((splitextList key.data).1.asString ++ (splitextList key.data).2.asString) = key
  have h : ((splitextList key.data).1 ++ (splitextList key.data).2).asString
      = key.data.asString := congrArg List.asString (splitextList_append_eq key.data)
  calc (splitextList key.data).1.asString ++ (splitextList key.data).2.asString
      = ((splitextList key.data).1 ++ (splitextList key.data).2).asString := rfl
    _ = key.data.asString := h
    _ = key := rfl

/-! ## Fixtures for the witnesses -/

/-- A world where every pipeline step succeeds. -/
def wOK : World where
  destBucket := some "dst"
  getObject := fun _ _ => .ok [1]
  decode := fun _ => some ⟨1000, 500, 0⟩
  save := fun _ _ => some [2]
  putStatus := fun _ _ _ => 200

/-- A well-formed single-record event. -/
def eOK : Event where
  records := some [⟨some "src", some "a/b/pic.png", "etc"⟩]
  extra := "top"

/-- A world with `DEST_BUCKET` unset. -/
def wNoEnv : World where
  destBucket := none
  getObject := fun _ _ => .ok [1]
  decode := fun _ => some ⟨1000, 500, 0⟩
  save := fun _ _ => some [2]
  putStatus := fun _ _ _ => 200

/-- A world whose upload reports HTTP 500. -/
def wBadPut : World where
  destBucket := some "dst"
  getObject := fun _ _ => .ok [1]
  decode := fun _ => some ⟨1000, 500, 0⟩
  save := fun _ _ => some [2]
  putStatus := fun _ _ _ => 500

/-! ## The claims -/

/-- **C1**: for every source object key the destination key is
`name ++ "_thumbnail" ++ ext`, where `(name, ext)` is the
`os.path.splitext` split of the source key at its last extension
separator (the two parts concatenate back to the key); a key with an
extension such as `"a/b/pic.png"` yields `"a/b/pic_thumbnail.png"`,
and a key with no extension such as `"a/b/pic"` yields
`"a/b/pic_thumbnail"`, which again has no extension. -/
theorem claimC1_destination_key :
    (∀ key : String,
      thumbnail_key key = (splitext key).1 ++ "_thumbnail" ++ (splitext key).2)
    ∧ (∀ key : String, (splitext key).1 ++ (splitext key).2 = key)
    ∧ thumbnail_key "a/b/pic.png" = "a/b/pic_thumbnail.png"
    ∧ (splitext "a/b/pic.png").2 = ".png"
    ∧ thumbnail_key "a/b/pic" = "a/b/pic_thumbnail"
    ∧ (splitext "a/b/pic").2 = ""
    ∧ (splitext (thumbnail_key "a/b/pic")).2 = "" :=
  ⟨fun _ => rfl, splitext_append_eq, by decide, by decide, by decide, by decide, by decide⟩

/-- **C2**: the resize step never exceeds the 500×500 box, never
upscales (inputs already within the box are returned unchanged), keeps
the aspect ratio within rounding of the exact scaled value in a
shrink, and maps a 1000×500 input to 500×250. -/
theorem claimC2_resize :
    (∀ img : Img,
      (pil_thumbnail img 500 500).width ≤ 500 ∧ (pil_thumbnail img 500 500).height ≤ 500)
    ∧ (∀ img : Img, img.width ≤ 500 → img.height ≤ 500 → pil_thumbnail img 500 500 = img)
    ∧ (∀ img : Img, 0 < img.width → 0 < img.height →
        ¬(img.width ≤ 500 ∧ img.height ≤ 500) → img.width ≤ img.height →
        |(((pil_thumbnail img 500 500).width : ℕ) : ℚ)
          - 500 * ((img.width : ℚ) / (img.height : ℚ))| ≤ 1)
    ∧ (∀ img : Img, 0 < img.width → 0 < img.height →
        ¬(img.width ≤ 500 ∧ img.height ≤ 500) → img.height < img.width →
        |(((pil_thumbnail img 500 500).height : ℕ) : ℚ)
          - 500 * ((img.height : ℚ) / (img.width : ℚ))| ≤ 1)
    ∧ (∀ c : Nat, pil_thumbnail ⟨1000, 500, c⟩ 500 500 = ⟨500, 250, c⟩) := by
  refine ⟨pil_thumbnail_le, pil_thumbnail_noop,
    fun img hw hh h1 hwh => pil_thumbnail_aspect_width img hw hh h1 hwh,
    fun img hw hh h1 hwh => pil_thumbnail_aspect_height img hw hh h1 hwh,
    fun c => ?_⟩
  norm_num [pil_thumbnail, round_aspect]
  rfl

/-- Witness for C2 at concrete images. -/
theorem claimC2_resize_witness :
    ((⟨400, 300, 3⟩ : Img).width ≤ 500 ∧ (⟨400, 300, 3⟩ : Img).height ≤ 500
      ∧ pil_thumbnail ⟨400, 300, 3⟩ 500 500 = ⟨400, 300, 3⟩)
    ∧ pil_thumbnail ⟨1000, 500, 7⟩ 500 500 = ⟨500, 250, 7⟩ :=
  ⟨⟨by decide, by decide, claimC2_resize.2.1 ⟨400, 300, 3⟩ (by decide) (by decide)⟩,
   claimC2_resize.2.2.2.2 7⟩

/-- **C3**: whenever the handler returns normally it returns the input
event itself (identity passthrough), so the return value carries no
information about the destination key or the final image dimensions —
it is the unmodified input. -/
theorem claimC3_identity_passthrough (w : World) (e : Event) {x : Event}
    {t : List Effect} (h : lambda_handler w e = (.ok x, t)) : x = e := by
  rcases lambda_handler_shape w e with
    ⟨hL, _⟩ | ⟨hL, _⟩ | ⟨_, _, _, _, hL⟩ | ⟨_, _, _, _, _, _, hL⟩ | ⟨_, hL⟩ |
    ⟨_, _, _, _, _, _, _, _, _, _, _, hL⟩ |
    ⟨_, _, _, _, _, _, _, _, _, _, _, _, _, _, _, _, hL⟩ |
    ⟨_, _, _, _, _, _, _, _, _, _, _, _, _, _, _, _, hL⟩
  all_goals rw [hL] at h
  all_goals simp only [Prod.mk.injEq] at h
  any_goals exact (Except.ok.inj h.1).symm
  all_goals exact Except.noConfusion h.1

/-- Witness for C3: a complete successful run. -/
theorem claimC3_witness :
    lambda_handler wOK eOK
      = (.ok eOK, [.readEnv "DEST_BUCKET", .getObject "src" "a/b/pic.png",
          .putObject "dst" "a/b/pic_thumbnail.png" [2]])
    ∧ eOK = eOK :=
  ⟨rfl, claimC3_identity_passthrough wOK eOK rfl⟩

/-- **C4** (counterexample to the claim as stated): with `DEST_BUCKET`
unset but an event that lacks `Records`, the invocation fails with
`KeyError('Records')` — an event-lookup failure, not the
missing-variable configuration error `KeyError('DEST_BUCKET')`. -/
theorem claimC4_counterexample :
    wNoEnv.destBucket = none
    ∧ lambda_handler wNoEnv ⟨none, ""⟩ = (.error (.keyError "Records"), [])
    ∧ HandlerError.keyError "Records" ≠ HandlerError.keyError "DEST_BUCKET" :=
  ⟨rfl, rfl, by decide⟩

/-- **C4** (amended): if `DEST_BUCKET` is unset, every invocation
fails before any storage operation (no `get_object`, no `put_object`
in the trace), and whenever the event's first record supplies both
bucket name and object key the failure is exactly the missing-variable
error `KeyError('DEST_BUCKET')`, raised after only the environment
read. -/
theorem claimC4_config_error (w : World) (e : Event) (hdb : w.destBucket = none) :
    (∃ err, (lambda_handler w e).1 = .error err)
    ∧ gets (lambda_handler w e).2 = []
    ∧ puts (lambda_handler w e).2 = []
    ∧ (∀ record rest bucket key, e.records = some (record :: rest) →
        record.bucketName = some bucket → record.objectKey = some key →
        lambda_handler w e = (.error (.keyError "DEST_BUCKET"), [.readEnv "DEST_BUCKET"])) := by
  rcases lambda_handler_shape w e with
    ⟨hL, hrec⟩ | ⟨hL, hrec⟩ | ⟨r, rs, hrec, hbn, hL⟩ | ⟨r, rs, b, hrec, hbn, hok, hL⟩ |
    ⟨_, hL⟩ |
    ⟨r, rs, b, k, tb, err, hrec, hbn, hok, hdb', _, hL⟩ |
    ⟨r, rs, b, k, tb, bs, im, buf, hrec, hbn, hok, hdb', _, _, _, _, hL⟩ |
    ⟨r, rs, b, k, tb, bs, im, buf, hrec, hbn, hok, hdb', _, _, _, _, hL⟩
  · exact ⟨⟨_, by rw [hL]⟩, by rw [hL]; rfl, by rw [hL]; rfl,
      fun record rest bucket key h => by rw [hrec] at h; exact absurd h (by simp)⟩
  · exact ⟨⟨_, by rw [hL]⟩, by rw [hL]; rfl, by rw [hL]; rfl,
      fun record rest bucket key h => by rw [hrec] at h; simp at h⟩
  · refine ⟨⟨_, by rw [hL]⟩, by rw [hL]; rfl, by rw [hL]; rfl,
      fun record rest bucket key h hb hk => ?_⟩
    rw [hrec] at h
    simp only [Option.some.injEq, List.cons.injEq] at h
    rw [← h.1] at hb
    rw [hbn] at hb
    exact absurd hb (by simp)
  · refine ⟨⟨_, by rw [hL]⟩, by rw [hL]; rfl, by rw [hL]; rfl,
      fun record rest bucket key h hb hk => ?_⟩
    rw [hrec] at h
    simp only [Option.some.injEq, List.cons.injEq] at h
    rw [← h.1] at hk
    rw [hok] at hk
    exact absurd hk (by simp)
  · exact ⟨⟨_, by rw [hL]⟩, by rw [hL]; rfl, by rw [hL]; rfl, fun _ _ _ _ _ _ _ => hL⟩
  · rw [hdb] at hdb'
    exact absurd hdb' (by simp)
  · rw [hdb] at hdb'
    exact absurd hdb' (by simp)
  · rw [hdb] at hdb'
    exact absurd hdb' (by simp)

/-- Witness for C4 (amended) with the unset variable and a well-formed
event. -/
theorem claimC4_witness :
    wNoEnv.destBucket = none
    ∧ lambda_handler wNoEnv eOK
        = (.error (.keyError "DEST_BUCKET"), [.readEnv "DEST_BUCKET"]) :=
  ⟨rfl, (claimC4_config_error wNoEnv eOK rfl).2.2.2
    ⟨some "src", some "a/b/pic.png", "etc"⟩ [] "src" "a/b/pic.png" rfl rfl rfl⟩

/-- **C5**: when every step up to the upload succeeds but the upload
response status is not 200, the handler raises
`Exception('Failed to upload image {key} to bucket {bucket}')`: the
message is built from the source key and the source bucket only — the
destination bucket and destination key do not occur in it. -/
theorem claimC5_upload_error (w : World) (e : Event) (record : S3Record)
    (rest : List S3Record) (bucket key tb : String) (bs : Bytes) (img : Img)
    (buffer : Bytes)
    (hrec : e.records = some (record :: rest))
    (hbn : record.bucketName = some bucket)
    (hok : record.objectKey = some key)
    (hdb : w.destBucket = some tb)
    (hget : w.getObject bucket key = .ok bs)
    (hdec : w.decode bs = some img)
    (hsave : w.save (pil_thumbnail img 500 500) "JPEG" = some buffer)
    (hst : w.putStatus tb (thumbnail_key key) buffer ≠ 200) :
    (lambda_handler w e).1 = .error (.uploadError
      ("Failed to upload image " ++ key ++ " to bucket " ++ bucket)) := by
  simp [lambda_handler, hrec, hbn, hok, hdb, hget, hdec, hsave, hst]

/-- Witness for C5: a run whose upload reports HTTP 500. -/
theorem claimC5_witness :
    wBadPut.putStatus "dst" (thumbnail_key "a/b/pic.png") [2] ≠ 200
    ∧ (lambda_handler wBadPut eOK).1 = .error (.uploadError
        ("Failed to upload image " ++ "a/b/pic.png" ++ " to bucket " ++ "src")) :=
  ⟨by decide, claimC5_upload_error wBadPut eOK ⟨some "src", some "a/b/pic.png", "etc"⟩ []
    "src" "a/b/pic.png" "dst" [1] ⟨1000, 500, 0⟩ [2]
    rfl rfl rfl rfl rfl rfl rfl (by decide)⟩

/-- **C10**: a malformed event — missing `Records`, empty `Records`,
or a first record lacking the bucket name or the object key — fails
with the corresponding lookup error (`KeyError`/`IndexError`) and an
empty effect trace: before the `DEST_BUCKET` environment variable is
read and before any storage operation. -/
theorem claimC10_malformed_event (w : World) (e : Event) :
    (e.records = none → lambda_handler w e = (.error (.keyError "Records"), []))
    ∧ (e.records = some [] → lambda_handler w e = (.error .indexError, []))
    ∧ (∀ record rest, e.records = some (record :: rest) → record.bucketName = none →
        lambda_handler w e = (.error (.keyError "name"), []))
    ∧ (∀ record rest bucket, e.records = some (record :: rest) →
        record.bucketName = some bucket → record.objectKey = none →
        lambda_handler w e = (.error (.keyError "key"), [])) :=
  ⟨fun h => by simp [lambda_handler, h],
   fun h => by simp [lambda_handler, h],
   fun record rest h hb => by simp [lambda_handler, h, hb],
   fun record rest bucket h hb hk => by simp [lambda_handler, h, hb, hk]⟩

/-- Witness for C10 at four concrete malformed events. -/
theorem claimC10_witness :
    lambda_handler wOK ⟨none, ""⟩ = (.error (.keyError "Records"), [])
    ∧ lambda_handler wOK ⟨some [], ""⟩ = (.error .indexError, [])
    ∧ lambda_handler wOK ⟨some [⟨none, some "k", ""⟩], ""⟩
        = (.error (.keyError "name"), [])
    ∧ lambda_handler wOK ⟨some [⟨some "b", none, ""⟩], ""⟩
        = (.error (.keyError "key"), []) :=
  ⟨(claimC10_malformed_event wOK ⟨none, ""⟩).1 rfl,
   (claimC10_malformed_event wOK ⟨some [], ""⟩).2.1 rfl,
   (claimC10_malformed_event wOK ⟨some [⟨none, some "k", ""⟩], ""⟩).2.2.1
     ⟨none, some "k", ""⟩ [] rfl rfl,
   (claimC10_malformed_event wOK ⟨some [⟨some "b", none, ""⟩], ""⟩).2.2.2
     ⟨some "b", none, ""⟩ [] "b" rfl rfl rfl⟩

/-- **C6**: every invocation makes at most one storage write, and
there is no partial success: on a normal return exactly one object is
written, at the derived destination key in the configured destination
bucket, while any failure of an earlier step (event lookup,
configuration read, fetch, decode, encode) leaves the trace without
any `put_object` call. -/
theorem claimC6_no_partial_success (w : World) (e : Event) :
    (puts (lambda_handler w e).2).length ≤ 1
    ∧ (∀ x, (lambda_handler w e).1 = .ok x →
        ∃ record rest key tb buffer, e.records = some (record :: rest) ∧
          record.objectKey = some key ∧ w.destBucket = some tb ∧
          puts (lambda_handler w e).2 = [(tb, thumbnail_key key, buffer)])
    ∧ (∀ err, (lambda_handler w e).1 = .error err → (∀ m, err ≠ .uploadError m) →
        puts (lambda_handler w e).2 = []) := by
  rcases lambda_handler_shape w e with
    ⟨hL, _⟩ | ⟨hL, _⟩ | ⟨_, _, _, _, hL⟩ | ⟨_, _, _, _, _, _, hL⟩ | ⟨_, hL⟩ |
    ⟨_, _, _, _, _, _, _, _, _, _, _, hL⟩ |
    ⟨r, rs, b, k, tb, bs, im, buf, hrec, hbn, hok, hdb, hg, hd, hs, hst, hL⟩ |
    ⟨r, rs, b, k, tb, bs, im, buf, hrec, hbn, hok, hdb, hg, hd, hs, hst, hL⟩
  iterate 6
    refine ⟨by rw [hL]; simp [puts], fun x hx => ?_, fun err herr hne => by rw [hL]; rfl⟩
    rw [hL] at hx
    exact Except.noConfusion hx
  · refine ⟨by rw [hL]; simp [puts], fun x hx => ?_, fun err herr hne => ?_⟩
    · rw [hL] at hx
      exact Except.noConfusion hx
    · rw [hL] at herr
      exact absurd (Except.error.inj herr).symm (hne _)
  · refine ⟨by rw [hL]; simp [puts], fun x hx => ?_, fun err herr hne => ?_⟩
    · exact ⟨r, rs, k, tb, buf, hrec, hok, hdb, by rw [hL]; simp [puts]⟩
    · rw [hL] at herr
      exact Except.noConfusion herr

/-- Witness for C6: the failure conjunct at a malformed event. -/
theorem claimC6_witness :
    (lambda_handler wOK ⟨none, ""⟩).1 = .error (.keyError "Records")
    ∧ puts (lambda_handler wOK ⟨none, ""⟩).2 = [] :=
  ⟨rfl, (claimC6_no_partial_success wOK ⟨none, ""⟩).2.2 (.keyError "Records") rfl
    (fun _ h => HandlerError.noConfusion h)⟩

/-- **C7**: the destination key keeps the source key's extension, even
though the uploaded body is always produced by encoding the resized
image in the fixed `"JPEG"` format — so a `.png` source key yields an
object named `…_thumbnail.png` whose bytes are JPEG. -/
theorem claimC7_extension_vs_format :
    (∀ key : String, (splitext (thumbnail_key key)).2 = (splitext key).2)
    ∧ (∀ (w : World) (e : Event) (db k : String) (body : Bytes),
        Effect.putObject db k body ∈ (lambda_handler w e).2 →
        ∃ img, w.save (pil_thumbnail img 500 500) "JPEG" = some body)
    ∧ (splitext "a/b/pic.png").2 = ".png"
    ∧ thumbnail_key "a/b/pic.png" = "a/b/pic_thumbnail.png"
    ∧ (splitext (thumbnail_key "a/b/pic.png")).2 = ".png" := by
  refine ⟨splitext_thumbnail_key, ?_, by decide, by decide, by decide⟩
  intro w e db k body hmem
  rcases lambda_handler_shape w e with
    ⟨hL, _⟩ | ⟨hL, _⟩ | ⟨_, _, _, _, hL⟩ | ⟨_, _, _, _, _, _, hL⟩ | ⟨_, hL⟩ |
    ⟨_, _, _, _, _, _, _, _, _, _, _, hL⟩ |
    ⟨r, rs, b, k', tb, bs, im, buf, hrec, hbn, hok, hdb, hg, hd, hs, hst, hL⟩ |
    ⟨r, rs, b, k', tb, bs, im, buf, hrec, hbn, hok, hdb, hg, hd, hs, hst, hL⟩
  iterate 6
    · rw [hL] at hmem
      simp at hmem
  iterate 2
    · rw [hL] at hmem
      simp only [List.mem_cons, List.not_mem_nil, or_false] at hmem
      rcases hmem with hmem | hmem | hmem
      · exact Effect.noConfusion hmem
      · exact Effect.noConfusion hmem
      · obtain ⟨_, _, hbody⟩ := Effect.putObject.inj hmem
        exact ⟨im, by rw [hbody]; exact hs⟩

/-- Witness for C7's trace conjunct: the put of a successful run. -/
theorem claimC7_witness :
    Effect.putObject "dst" "a/b/pic_thumbnail.png" [2] ∈ (lambda_handler wOK eOK).2
    ∧ ∃ img, wOK.save (pil_thumbnail img 500 500) "JPEG" = some [2] :=
  ⟨by decide, claimC7_extension_vs_format.2.1 wOK eOK "dst" "a/b/pic_thumbnail.png" [2]
    (by decide)⟩

/-- **C8**: only the first record's bucket name and object key matter:
two events that agree on those two fields — whatever their other
fields, later records, or record count — produce the same effect
trace, raise the same error, and succeed together (each returning its
own input). -/
theorem claimC8_first_record_only (w : World) (e₁ e₂ : Event) (r₁ r₂ : S3Record)
    (rest₁ rest₂ : List S3Record)
    (h₁ : e₁.records = some (r₁ :: rest₁)) (h₂ : e₂.records = some (r₂ :: rest₂))
    (hbn : r₁.bucketName = r₂.bucketName) (hok : r₁.objectKey = r₂.objectKey) :
    (lambda_handler w e₁).2 = (lambda_handler w e₂).2
    ∧ (∀ err, (lambda_handler w e₁).1 = .error err ↔ (lambda_handler w e₂).1 = .error err)
    ∧ ((lambda_handler w e₁).1 = .ok e₁ ↔ (lambda_handler w e₂).1 = .ok e₂) := by
  cases hb : r₁.bucketName with
  | none =>
    have hb₂ : r₂.bucketName = none := by rw [← hbn]; exact hb
    have H₁ : lambda_handler w e₁ = (.error (.keyError "name"), []) := by
      simp [lambda_handler, h₁, hb]
    have H₂ : lambda_handler w e₂ = (.error (.keyError "name"), []) := by
      simp [lambda_handler, h₂, hb₂]
    rw [H₁, H₂]
    exact ⟨rfl, fun err => Iff.rfl,
      ⟨fun hh => Except.noConfusion hh, fun hh => Except.noConfusion hh⟩⟩
  | some bucket =>
    have hb₂ : r₂.bucketName = some bucket := by rw [← hbn]; exact hb
    cases hk : r₁.objectKey with
    | none =>
      have hk₂ : r₂.objectKey = none := by rw [← hok]; exact hk
      have H₁ : lambda_handler w e₁ = (.error (.keyError "key"), []) := by
        simp [lambda_handler, h₁, hb, hk]
      have H₂ : lambda_handler w e₂ = (.error (.keyError "key"), []) := by
        simp [lambda_handler, h₂, hb₂, hk₂]
      rw [H₁, H₂]
      exact ⟨rfl, fun err => Iff.rfl,
        ⟨fun hh => Except.noConfusion hh, fun hh => Except.noConfusion hh⟩⟩
    | some key =>
      have hk₂ : r₂.objectKey = some key := by rw [← hok]; exact hk
      cases hdb : w.destBucket with
      | none =>
        have H₁ : lambda_handler w e₁
            = (.error (.keyError "DEST_BUCKET"), [.readEnv "DEST_BUCKET"]) := by
          simp [lambda_handler, h₁, hb, hk, hdb]
        have H₂ : lambda_handler w e₂
            = (.error (.keyError "DEST_BUCKET"), [.readEnv "DEST_BUCKET"]) := by
          simp [lambda_handler, h₂, hb₂, hk₂, hdb]
        rw [H₁, H₂]
        exact ⟨rfl, fun err => Iff.rfl,
          ⟨fun hh => Except.noConfusion hh, fun hh => Except.noConfusion hh⟩⟩
      | some tb =>
        cases hget : w.getObject bucket key with
        | error m =>
          have H₁ : lambda_handler w e₁ = (.error (.clientError m),
              [.readEnv "DEST_BUCKET", .getObject bucket key]) := by
            simp [lambda_handler, h₁, hb, hk, hdb, hget]
          have H₂ : lambda_handler w e₂ = (.error (.clientError m),
              [.readEnv "DEST_BUCKET", .getObject bucket key]) := by
            simp [lambda_handler, h₂, hb₂, hk₂, hdb, hget]
          rw [H₁, H₂]
          exact ⟨rfl, fun err => Iff.rfl,
            ⟨fun hh => Except.noConfusion hh, fun hh => Except.noConfusion hh⟩⟩
        | ok bs =>
          cases hdec : w.decode bs with
          | none =>
            have H₁ : lambda_handler w e₁ = (.error .decodeError,
                [.readEnv "DEST_BUCKET", .getObject bucket key]) := by
              simp [lambda_handler, h₁, hb, hk, hdb, hget, hdec]
            have H₂ : lambda_handler w e₂ = (.error .decodeError,
                [.readEnv "DEST_BUCKET", .getObject bucket key]) := by
              simp [lambda_handler, h₂, hb₂, hk₂, hdb, hget, hdec]
            rw [H₁, H₂]
            exact ⟨rfl, fun err => Iff.rfl,
              ⟨fun hh => Except.noConfusion hh, fun hh => Except.noConfusion hh⟩⟩
          | some img =>
            cases hsave : w.save (pil_thumbnail img 500 500) "JPEG" with
            | none =>
              have H₁ : lambda_handler w e₁ = (.error .encodeError,
                  [.readEnv "DEST_BUCKET", .getObject bucket key]) := by
                simp [lambda_handler, h₁, hb, hk, hdb, hget, hdec, hsave]
              have H₂ : lambda_handler w e₂ = (.error .encodeError,
                  [.readEnv "DEST_BUCKET", .getObject bucket key]) := by
                simp [lambda_handler, h₂, hb₂, hk₂, hdb, hget, hdec, hsave]
              rw [H₁, H₂]
              exact ⟨rfl, fun err => Iff.rfl,
                ⟨fun hh => Except.noConfusion hh, fun hh => Except.noConfusion hh⟩⟩
            | some buffer =>
              by_cases hst : w.putStatus tb (thumbnail_key key) buffer = 200
              · have H₁ : lambda_handler w e₁ = (.ok e₁,
                    [.readEnv "DEST_BUCKET", .getObject bucket key,
                     .putObject tb (thumbnail_key key) buffer]) := by
                  simp [lambda_handler, h₁, hb, hk, hdb, hget, hdec, hsave, hst]
                have H₂ : lambda_handler w e₂ = (.ok e₂,
                    [.readEnv "DEST_BUCKET", .getObject bucket key,
                     .putObject tb (thumbnail_key key) buffer]) := by
                  simp [lambda_handler, h₂, hb₂, hk₂, hdb, hget, hdec, hsave, hst]
                rw [H₁, H₂]
                exact ⟨rfl,
                  fun err => ⟨fun hh => Except.noConfusion hh,
                    fun hh => Except.noConfusion hh⟩,
                  by simp⟩
              · have H₁ : lambda_handler w e₁ = (.error (.uploadError
                    ("Failed to upload image " ++ key ++ " to bucket " ++ bucket)),
                    [.readEnv "DEST_BUCKET", .getObject bucket key,
                     .putObject tb (thumbnail_key key) buffer]) := by
                  simp [lambda_handler, h₁, hb, hk, hdb, hget, hdec, hsave, hst]
                have H₂ : lambda_handler w e₂ = (.error (.uploadError
                    ("Failed to upload image " ++ key ++ " to bucket " ++ bucket)),
                    [.readEnv "DEST_BUCKET", .getObject bucket key,
                     .putObject tb (thumbnail_key key) buffer]) := by
                  simp [lambda_handler, h₂, hb₂, hk₂, hdb, hget, hdec, hsave, hst]
                rw [H₁, H₂]
                exact ⟨rfl, fun err => Iff.rfl,
                  ⟨fun hh => Except.noConfusion hh, fun hh => Except.noConfusion hh⟩⟩

/-- A second event sharing `eOK`'s first-record bucket and key, with
an extra record and different opaque fields. -/
def eOK2 : Event where
  records := some [⟨some "src", some "a/b/pic.png", "other"⟩, ⟨some "x", some "y", "z"⟩]
  extra := "different"

/-- Witness for C8: `eOK` versus `eOK2`. -/
theorem claimC8_witness :
    (lambda_handler wOK eOK).2 = (lambda_handler wOK eOK2).2
    ∧ ((lambda_handler wOK eOK).1 = .ok eOK ↔ (lambda_handler wOK eOK2).1 = .ok eOK2) :=
  ⟨(claimC8_first_record_only wOK eOK eOK2 ⟨some "src", some "a/b/pic.png", "etc"⟩
      ⟨some "src", some "a/b/pic.png", "other"⟩ [] [⟨some "x", some "y", "z"⟩]
      rfl rfl rfl rfl).1,
   (claimC8_first_record_only wOK eOK eOK2 ⟨some "src", some "a/b/pic.png", "etc"⟩
      ⟨some "src", some "a/b/pic.png", "other"⟩ [] [⟨some "x", some "y", "z"⟩]
      rfl rfl rfl rfl).2.2⟩

/-- **C9**: a second invocation with the same event and world is
deterministic — it derives the same destination key and returns the
same result, raising no error — and replaying the successful trace a
second time overwrites the destination object with the same bytes,
leaving the store exactly as after the first replay. -/
theorem claimC9_idempotent (w : World) (e : Event) (x : Event) (t : List Effect)
    (s : Store) (h : lambda_handler w e = (.ok x, t)) :
    lambda_handler w e = (.ok x, t)
    ∧ (∃ record rest key tb buffer, e.records = some (record :: rest) ∧
        record.objectKey = some key ∧ w.destBucket = some tb ∧
        puts t = [(tb, thumbnail_key key, buffer)])
    ∧ applyTrace (applyTrace s t) t = applyTrace s t := by
  refine ⟨h, ?_⟩
  rcases lambda_handler_shape w e with
    ⟨hL, _⟩ | ⟨hL, _⟩ | ⟨_, _, _, _, hL⟩ | ⟨_, _, _, _, _, _, hL⟩ | ⟨_, hL⟩ |
    ⟨_, _, _, _, _, _, _, _, _, _, _, hL⟩ |
    ⟨_, _, _, _, _, _, _, _, _, _, _, _, _, _, _, _, hL⟩ |
    ⟨r, rs, b, k, tb, bs, im, buf, hrec, hbn, hok, hdb, hg, hd, hs, hst, hL⟩
  iterate 7
    · rw [hL] at h
      simp only [Prod.mk.injEq] at h
      exact Except.noConfusion h.1
  rw [hL] at h
  simp only [Prod.mk.injEq, Except.ok.injEq] at h
  obtain ⟨-, hTR⟩ := h
  subst hTR
  refine ⟨⟨r, rs, k, tb, buf, hrec, hok, hdb, by simp [puts]⟩, ?_⟩
  funext b' k'
  show (if b' = tb ∧ k' = thumbnail_key k then some buf
      else if b' = tb ∧ k' = thumbnail_key k then some buf else s b' k')
    = (if b' = tb ∧ k' = thumbnail_key k then some buf else s b' k')
  by_cases hc : b' = tb ∧ k' = thumbnail_key k
  · rw [if_pos hc, if_pos hc]
  · rw [if_neg hc, if_neg hc]

/-- Witness for C9: the successful run of `wOK` on `eOK`, replayed
against the empty store. -/
theorem claimC9_witness :
    lambda_handler wOK eOK
      = (.ok eOK, [.readEnv "DEST_BUCKET", .getObject "src" "a/b/pic.png",
          .putObject "dst" "a/b/pic_thumbnail.png" [2]])
    ∧ (∃ record rest key tb buffer, eOK.records = some (record :: rest) ∧
        record.objectKey = some key ∧ wOK.destBucket = some tb ∧
        puts [.readEnv "DEST_BUCKET", .getObject "src" "a/b/pic.png",
          .putObject "dst" "a/b/pic_thumbnail.png" [2]]
          = [(tb, thumbnail_key key, buffer)])
    ∧ applyTrace (applyTrace (fun _ _ => none)
        [.readEnv "DEST_BUCKET", .getObject "src" "a/b/pic.png",
         .putObject "dst" "a/b/pic_thumbnail.png" [2]])
        [.readEnv "DEST_BUCKET", .getObject "src" "a/b/pic.png",
         .putObject "dst" "a/b/pic_thumbnail.png" [2]]
      = applyTrace (fun _ _ => none)
        [.readEnv "DEST_BUCKET", .getObject "src" "a/b/pic.png",
         .putObject "dst" "a/b/pic_thumbnail.png" [2]] :=
  claimC9_idempotent wOK eOK eOK
    [.readEnv "DEST_BUCKET", .getObject "src" "a/b/pic.png",
     .putObject "dst" "a/b/pic_thumbnail.png" [2]]
    (fun _ _ => none) rfl

end Thumb
